import Mathlib

/-
Verification of the any-llm-go provider translation layer.

The Go sources embedded here are, per provider:
  * gemini   — the full provider implementation (request conversion, streaming
               reconstruction, error classification) translated from source;
  * mistral  — the message-patching preprocessing translated from source;
  * deepseek — the JSON-schema degradation preprocessing translated from source;
  * anthropic — the implementation file is not part of the available sources
               (only its test file is), so the functions needed here are
               modelled from the design document and the unit-test vectors;
               each such definition is marked "Modelled from the spec".

Modelling conventions:
  * Go strings are Lean Strings; Go byte-level operations on the involved
    ASCII data coincide with the character-level operations used here.
  * Go slices and maps are Lean lists (maps as association lists preserving
    insertion order where the source relies on it).
  * crypto/rand-backed ID generation is modelled by a deterministic counter
    supply; its only failure mode (an OS entropy read error) is not modelled,
    so functions that could only fail there are total here.
  * encoding/json values are modelled by the GoAny inductive below; a Go
    value that json.Marshal rejects (func, chan, ...) is GoAny.unsupported.
-/

namespace AnyLLM

/-- Embedding of Go strings.ToLower. Lean Char.toLower lowercases ASCII
letters; the Unicode special casings of the Go version (e.g. the Kelvin sign)
are not modelled — every pattern matched in the sources is plain ASCII. -/
def goToLower (s : String) : String := ⟨s.data.map Char.toLower⟩

/-- Boolean test that the first list is a prefix of the second. -/
def listPrefixB : List Char → List Char → Bool
  | [], _ => true
  | _ :: _, [] => false
  | a :: as, b :: bs => a == b && listPrefixB as bs

/-- Boolean test that the first list occurs contiguously inside the second. -/
def listInfixB (p : List Char) : List Char → Bool
  | [] => listPrefixB p []
  | b :: t => listPrefixB p (b :: t) || listInfixB p t

/-- Embedding of Go strings.Contains. -/
def goContains (s sub : String) : Bool := listInfixB sub.data s.data

/-- Specification-side case-insensitive substring matching, defined
independently of the code path (which lowercases only the subject and
compares against already-lowercase literals). -/
def containsCaseInsensitive (s pat : String) : Bool :=
  goContains (goToLower s) (goToLower pat)

/-- Embedding of a Go `any` (interface) value holding JSON-shaped data.
Numbers are integral in every schema the sources and tests manipulate.
`unsupported` stands for a value encoding/json cannot serialize. -/
inductive GoAny where
  | null
  | boolv (b : Bool)
  | num (n : Int)
  | str (s : String)
  | arr (xs : List GoAny)
  | obj (fields : List (String × GoAny))
  | unsupported
deriving Repr

mutual

/-- Embedding of Go json.Marshal on GoAny values: compact serialization,
failing exactly when an unsupported value occurs anywhere inside. The byte
layout (key sorting, HTML escaping) of encoding/json is not relied on by any
claim; only totality on supported values and failure on unsupported ones. -/
def jsonMarshal : GoAny → Option String
  | .null => some "null"
  | .boolv true => some "true"
  | .boolv false => some "false"
  | .num n => some (toString n)
  | .str s => some ("\"" ++ s ++ "\"")
  | .arr xs => (jsonMarshalList xs).map (fun ps => "[" ++ String.intercalate "," ps ++ "]")
  | .obj fs => (jsonMarshalFields fs).map (fun ps => "\x7b" ++ String.intercalate "," ps ++ "\x7d")
  | .unsupported => none

/-- Serialization of a list of values, propagating failure. -/
def jsonMarshalList : List GoAny → Option (List String)
  | [] => some []
  | x :: xs => do
    let s ← jsonMarshal x
    let rest ← jsonMarshalList xs
    pure (s :: rest)

/-- Serialization of object fields, propagating failure. -/
def jsonMarshalFields : List (String × GoAny) → Option (List String)
  | [] => some []
  | (k, v) :: fs => do
    let s ← jsonMarshal v
    let rest ← jsonMarshalFields fs
    pure (("\"" ++ k ++ "\":" ++ s) :: rest)

end

/-- Embedding of Go json.MarshalIndent as used on schema objects: same
success/failure behavior as jsonMarshal; the pretty-printing whitespace is
not modelled (no claim inspects the layout of the serialized schema). -/
def jsonMarshalIndent (v : GoAny) : Option String := jsonMarshal v

namespace providers

/-- Message role constants of the canonical model. -/
def roleSystem : String := "system"

/-- User role constant. -/
def roleUser : String := "user"

/-- Assistant role constant. -/
def roleAssistant : String := "assistant"

/-- Tool role constant. -/
def roleTool : String := "tool"

/-- Canonical finish reason: normal stop. -/
def finishReasonStop : String := "stop"

/-- Canonical finish reason: token limit reached. -/
def finishReasonLength : String := "length"

/-- Canonical finish reason: tool invocation requested. -/
def finishReasonToolCalls : String := "tool_calls"

/-- Canonical finish reason: content filtered. -/
def finishReasonContentFilter : String := "content_filter"

/-- Reasoning effort constant: none. -/
def reasoningEffortNone : String := "none"

/-- Reasoning effort constant: low. -/
def reasoningEffortLow : String := "low"

/-- Reasoning effort constant: medium. -/
def reasoningEffortMedium : String := "medium"

/-- Reasoning effort constant: high. -/
def reasoningEffortHigh : String := "high"

/-- Canonical function-call payload of a tool call. -/
structure FunctionCall where
  name : String
  arguments : String
deriving DecidableEq, Repr

/-- Canonical emitted tool invocation. -/
structure ToolCall where
  id : String
  type_ : String
  function : FunctionCall
deriving DecidableEq, Repr

/-- Canonical reasoning (thinking) block. -/
structure Reasoning where
  content : String
deriving DecidableEq, Repr

/-- Canonical image reference of a multimodal content part. -/
structure ImageURL where
  url : String
deriving DecidableEq, Repr

/-- Canonical typed content part of a multimodal message. -/
structure ContentPart where
  type_ : String
  text : String
  imageURL : Option ImageURL
deriving DecidableEq, Repr

/-- The canonical message content: Go types it as `any` holding either a
plain string or a part sequence (spec §3 invariant: exactly one of the two). -/
inductive MessageContent where
  | str (s : String)
  | parts (ps : List ContentPart)
deriving DecidableEq, Repr

/-- Canonical conversation message. -/
structure Message where
  role : String
  content : MessageContent
  name : String := ""
  toolCallID : String := ""
  toolCalls : List ToolCall := []
  reasoning : Option Reasoning := none
deriving DecidableEq, Repr

/-- Modelled from the spec: providers.Message.ContentString is part of the
canonical data-model package, which is not among the available sources. Per
spec §3 the content is either a plain string or a part sequence; the sources
call ContentString for the plain-string payload (they guard the multimodal
case separately), and the tests only exercise the plain-string case. -/
def Message.contentString (m : Message) : String :=
  match m.content with
  | .str s => s
  | .parts _ => ""

/-- Modelled from the spec: providers.Message.IsMultiModal reports whether
the content is a part sequence rather than a plain string (spec §3). -/
def Message.isMultiModal (m : Message) : Bool :=
  match m.content with
  | .str _ => false
  | .parts _ => true

/-- Modelled from the spec: providers.Message.ContentParts yields the part
sequence of a multimodal message (empty for plain-string content). -/
def Message.contentParts (m : Message) : List ContentPart :=
  match m.content with
  | .str _ => []
  | .parts ps => ps

/-- Canonical token usage record. -/
structure Usage where
  promptTokens : Int
  completionTokens : Int
  totalTokens : Int
  reasoningTokens : Int
deriving DecidableEq, Repr

/-- Canonical incremental delta carried by a streamed chunk. -/
structure ChunkDelta where
  content : String
  reasoning : Option Reasoning
  toolCalls : List ToolCall
deriving DecidableEq, Repr

/-- Canonical choice of a streamed chunk. -/
structure ChunkChoice where
  index : Nat
  delta : ChunkDelta
  finishReason : String
deriving DecidableEq, Repr

/-- Canonical streamed chunk. -/
structure ChatCompletionChunk where
  id : String
  object : String
  model : String
  choices : List ChunkChoice
  usage : Option Usage := none
deriving DecidableEq, Repr

/-- Canonical tool function schema; parameters is a JSON-schema-shaped Go
map (`map[string]any`), absent when nil. -/
structure Function where
  name : String
  description : String
  parameters : Option GoAny
deriving Repr

/-- Canonical tool. -/
structure Tool where
  type_ : String
  function : Function
deriving Repr

/-- Canonical JSON schema attachment of a response-format directive. -/
structure JSONSchema where
  name : String
  schema : GoAny
deriving Repr

/-- Canonical response-format directive. -/
structure ResponseFormat where
  type_ : String
  jsonSchema : Option JSONSchema
deriving Repr

/-- Canonical stream options record. -/
structure StreamOptions where
  includeUsage : Bool
deriving DecidableEq, Repr

/-- An IEEE-754 float64 parameter value, modelled opaquely by its bit
pattern: no claim performs floating-point arithmetic, the values are only
carried through or compared for identity. -/
structure GoFloat64 where
  bits : Nat
deriving DecidableEq, Repr

/-- Canonical completion request parameters (the fields the embedded
providers read or copy). ToolChoice and Extra are `any`-typed in Go and
modelled as JSON-shaped values. -/
structure CompletionParams where
  model : String
  messages : List Message
  temperature : Option GoFloat64 := none
  topP : Option GoFloat64 := none
  maxTokens : Option Int := none
  stop : List String := []
  stream : Bool := false
  streamOptions : Option StreamOptions := none
  tools : List Tool := []
  toolChoice : Option GoAny := none
  parallelToolCalls : Option Bool := none
  responseFormat : Option ResponseFormat := none
  reasoningEffort : String := ""
  seed : Option Int := none
  user : String := ""
  extra : Option GoAny := none
deriving Repr

/-- Canonical error taxonomy (spec §7). Each constructor corresponds to one
of the errors-package constructors used by the providers; the provider-name
decoration and wrapped cause carried by those constructors do not affect any
claim and are not modelled. -/
inductive ErrorKind where
  | missingAPIKey
  | authentication
  | rateLimit
  | invalidRequest
  | contextLength
  | contentFilter
  | modelNotFound
  | providerDefault
deriving DecidableEq, Repr

end providers

namespace gemini

/-- Gemini provider name constant. -/
def providerName : String := "gemini"

/-- Default thinking budget for high reasoning effort. -/
def thinkingBudgetHigh : Int := 24576

/-- Default thinking budget for low reasoning effort. -/
def thinkingBudgetLow : Int := 1024

/-- Default thinking budget for medium reasoning effort. -/
def thinkingBudgetMedium : Int := 8192

/-- Content part type constant for images. -/
def contentPartTypeImageURL : String := "image_url"

/-- Content part type constant for text. -/
def contentPartTypeText : String := "text"

/-- Gemini native role for assistant turns. -/
def roleModel : String := "model"

/-- Gemini native role for user turns. -/
def roleUser : String := "user"

/-- Object type constant for streamed chunks. -/
def objectChatCompletionChunk : String := "chat.completion.chunk"

/-- Fallback function name for tool results lacking a name. -/
def toolCallFallbackName : String := "function"

/-- Tool call type constant. -/
def toolCallType : String := "function"

/-- ID prefix for generated completion identifiers. -/
def idPrefixCompletion : String := "gemini-"

/-- ID prefix for generated tool call identifiers. -/
def idPrefixToolCall : String := "call_"

/-- Default MIME type for image URLs of undeterminable type. -/
def defaultImageMIMEType : String := "image/jpeg"

/-- Error message pattern for context-related 400 classification. -/
def errMsgContext : String := "context"

/-- Error message pattern for token-related 400 classification. -/
def errMsgToken : String := "token"

/-- Error message pattern for safety-related 400 classification. -/
def errMsgSafety : String := "safety"

/-- Error message pattern for block-related 400 classification. -/
def errMsgBlock : String := "block"

/-- Native genai.FinishReason value STOP (external SDK enum; the zero value
of the string-typed enum is the empty string, meaning no finish signal). -/
def finishReasonStopNative : String := "STOP"

/-- Native genai.FinishReason value MAX_TOKENS. -/
def finishReasonMaxTokensNative : String := "MAX_TOKENS"

/-- Native genai.FinishReason value SAFETY. -/
def finishReasonSafetyNative : String := "SAFETY"

/-- Native genai.FinishReason value BLOCKLIST. -/
def finishReasonBlocklistNative : String := "BLOCKLIST"

/-- Native genai.FinishReason value PROHIBITED_CONTENT. -/
def finishReasonProhibitedContentNative : String := "PROHIBITED_CONTENT"

/-- Native genai.FinishReason value RECITATION. -/
def finishReasonRecitationNative : String := "RECITATION"

/-- Native genai.FunctionCall. The source receives the arguments as a Go
map and re-serializes them with json.Marshal (swallowing a marshal error
into an empty argument string — unreachable for SDK-delivered JSON maps);
the map is modelled here directly by its JSON serialization. -/
structure FunctionCallG where
  name : String
  args : Option String
deriving DecidableEq, Repr

/-- Native genai.FunctionResponse. The source parses the tool result content
as JSON, wrapping it as a result object on parse failure; the resulting map
is modelled by the source content string it was built from, which no claim
inspects further. -/
structure FunctionResponseG where
  name : String
  response : String
deriving DecidableEq, Repr

/-- Native genai.FileData part payload. -/
structure FileDataG where
  fileURI : String
  mimeType : String
deriving DecidableEq, Repr

/-- Native genai.Part: at most one payload populated, plus the thought flag. -/
structure PartG where
  text : String := ""
  thought : Bool := false
  functionCall : Option FunctionCallG := none
  functionResponse : Option FunctionResponseG := none
  fileData : Option FileDataG := none
deriving DecidableEq, Repr

/-- Native genai.Content. -/
structure ContentG where
  role : String
  parts : List PartG
deriving DecidableEq, Repr

/-- Native genai.Candidate (the fields the source reads). -/
structure CandidateG where
  content : Option ContentG
  finishReason : String := ""
deriving DecidableEq, Repr

/-- Native genai usage metadata. Token counts are int32 in the SDK; the
32-bit wrap of the prompt+candidates sum is not modelled (counts are far
below 2^31). -/
structure UsageMetadataG where
  promptTokenCount : Int
  candidatesTokenCount : Int
  thoughtsTokenCount : Int := 0
deriving DecidableEq, Repr

/-- Native genai.GenerateContentResponse (the fields the source reads). -/
structure ResponseG where
  usageMetadata : Option UsageMetadataG := none
  candidates : List CandidateG := []
deriving DecidableEq, Repr

/-- Native genai.ThinkingConfig. -/
structure ThinkingConfigG where
  includeThoughts : Bool
  thinkingBudget : Int
deriving DecidableEq, Repr

/-- Native genai.GenerateContentConfig (the fields the embedded functions
touch; the remaining sampling fields are irrelevant to every claim). -/
structure GenerateContentConfigG where
  maxOutputTokens : Int := 0
  thinkingConfig : Option ThinkingConfigG := none
deriving DecidableEq, Repr

/-- Native genai.FunctionDeclaration. -/
structure FunctionDeclarationG where
  name : String
  description : String
  parametersJsonSchema : Option GoAny := none
deriving Repr

/-- Native genai.Tool. -/
structure ToolG where
  functionDeclarations : List FunctionDeclarationG
deriving Repr

/-- Embedding of generateID: the crypto/rand hex suffix is modelled by a
deterministic counter, so generation is total (the Go error path fires only
when the OS entropy read fails). -/
def generateID (pre : String) (n : Nat) : String := pre ++ toString n

/-- Stream accumulator state (streamState of the source), extended with the
counter supply standing in for the crypto/rand ID source. -/
structure StreamState where
  content : String
  finishReason : String
  messageID : String
  model : String
  reasoning : String
  toolCalls : List providers.ToolCall
  usage : Option providers.Usage
  idSupply : Nat
deriving DecidableEq, Repr

/-- Embedding of newStreamState. -/
def newStreamState (model : String) : StreamState :=
  { content := "", finishReason := "", messageID := generateID idPrefixCompletion 0,
    model := model, reasoning := "", toolCalls := [], usage := none, idSupply := 1 }

/-- Embedding of streamState.chunk. -/
def StreamState.chunk (s : StreamState) (delta : providers.ChunkDelta) :
    providers.ChatCompletionChunk :=
  { id := s.messageID, object := objectChatCompletionChunk, model := s.model,
    choices := [{ index := 0, delta := delta, finishReason := "" }], usage := none }

/-- Embedding of convertFinishReason (Gemini native reason to canonical). -/
def convertFinishReason (reason : String) : String :=
  if reason = finishReasonStopNative then providers.finishReasonStop
  else if reason = finishReasonMaxTokensNative then providers.finishReasonLength
  else if reason = finishReasonSafetyNative ∨ reason = finishReasonBlocklistNative ∨
      reason = finishReasonProhibitedContentNative then providers.finishReasonContentFilter
  else if reason = finishReasonRecitationNative then providers.finishReasonStop
  else providers.finishReasonStop

/-- Embedding of streamState.finalChunk. -/
def StreamState.finalChunk (s : StreamState) : providers.ChatCompletionChunk :=
  let c := s.chunk { content := "", reasoning := none, toolCalls := [] }
  let finishReason := convertFinishReason s.finishReason
  let finishReason :=
    if 0 < s.toolCalls.length ∧ finishReason = providers.finishReasonStop then
      providers.finishReasonToolCalls
    else finishReason
  { c with
    choices := c.choices.map (fun ch => { ch with finishReason := finishReason })
    usage := s.usage }

/-- Embedding of convertFunctionCallToToolCall, threading the ID supply. -/
def convertFunctionCallToToolCall (fc : FunctionCallG) (supply : Nat) :
    providers.ToolCall × Nat :=
  let argsJSON := match fc.args with
    | none => ""
    | some s => s
  ({ id := generateID idPrefixToolCall supply, type_ := toolCallType,
     function := { name := fc.name, arguments := argsJSON } }, supply + 1)

/-- One iteration of the part loop inside streamState.processResponse. -/
def StreamState.processPart (s : StreamState) (part : PartG) :
    StreamState × List providers.ChatCompletionChunk :=
  match part.functionCall with
  | some fc =>
    let r := convertFunctionCallToToolCall fc s.idSupply
    let s1 := { s with toolCalls := s.toolCalls ++ [r.1], idSupply := r.2 }
    (s1, [s.chunk { content := "", reasoning := none, toolCalls := [r.1] }])
  | none =>
    if part.thought then
      ({ s with reasoning := s.reasoning ++ part.text },
       [s.chunk { content := "", reasoning := some { content := part.text }, toolCalls := [] }])
    else if part.text ≠ "" then
      ({ s with content := s.content ++ part.text },
       [s.chunk { content := part.text, reasoning := none, toolCalls := [] }])
    else (s, [])

/-- The part loop of streamState.processResponse. -/
def processParts : StreamState → List PartG → StreamState × List providers.ChatCompletionChunk
  | s, [] => (s, [])
  | s, p :: rest =>
    let r1 := s.processPart p
    let r2 := processParts r1.1 rest
    (r2.1, r1.2 ++ r2.2)

/-- Embedding of streamState.processResponse. -/
def StreamState.processResponse (s : StreamState) (resp : ResponseG) :
    StreamState × List providers.ChatCompletionChunk :=
  let s := match resp.usageMetadata with
    | some um =>
      { s with usage := some {
          promptTokens := um.promptTokenCount
          completionTokens := um.candidatesTokenCount
          totalTokens := um.promptTokenCount + um.candidatesTokenCount
          reasoningTokens := um.thoughtsTokenCount } }
    | none => s
  match resp.candidates with
  | [] => (s, [])
  | candidate :: _ =>
    let s := if candidate.finishReason ≠ "" then { s with finishReason := candidate.finishReason } else s
    match candidate.content with
    | none => (s, [])
    | some content => processParts s content.parts

/-- The full event loop of CompletionStream over a native event sequence. -/
def runStream : StreamState → List ResponseG → StreamState × List providers.ChatCompletionChunk
  | s, [] => (s, [])
  | s, r :: rest =>
    let p := s.processResponse r
    let q := runStream p.1 rest
    (q.1, p.2 ++ q.2)

/-- One native item yielded by the SDK streaming iterator: a response, or an
error terminating the iteration. -/
inductive StreamEvent where
  | resp (r : ResponseG)
  | errEvent
deriving Repr

/-- One observable action of the producing goroutine of CompletionStream:
a send on the content channel, a send on the error channel, or the close of
either channel. -/
inductive StreamAction where
  | sendChunk (c : providers.ChatCompletionChunk)
  | sendErr
  | closeErrs
  | closeChunks
deriving DecidableEq, Repr

/-- The body of the producing goroutine of CompletionStream, as the sequence
of channel actions it performs before its deferred closes run: per received
response the processResponse chunks are sent; a native error sends one
classified error and returns; after exhaustion the final chunk is sent.
Cancellation (which abandons sends) is outside the scope of the claims and
is not modelled, nor is the unreachable newStreamState failure. -/
def streamLoop : StreamState → List StreamEvent → List StreamAction
  | s, [] => [.sendChunk s.finalChunk]
  | _, .errEvent :: _ => [.sendErr]
  | s, .resp r :: rest =>
    let p := s.processResponse r
    p.2.map .sendChunk ++ streamLoop p.1 rest

/-- The complete action trace of one CompletionStream producer run. The two
closes are deferred in source order close(chunks) then close(errs); Go runs
deferred calls last-in-first-out, so on exit close(errs) executes before
close(chunks). -/
def producerTrace (model : String) (events : List StreamEvent) : List StreamAction :=
  streamLoop (newStreamState model) events ++ [.closeErrs, .closeChunks]

/-- Count of error-channel sends in a trace. -/
def countSendErr : List StreamAction → Nat
  | [] => 0
  | .sendErr :: rest => countSendErr rest + 1
  | _ :: rest => countSendErr rest

/-- Embedding of convertTools: every tool is mapped to a function
declaration wholesale, the parameter schema passed through as-is (nil stays
absent); no validation is performed and no error can be produced. -/
def convertTools (tools : List providers.Tool) : List ToolG :=
  [{ functionDeclarations := tools.map (fun tool =>
      { name := tool.function.name
        description := tool.function.description
        parametersJsonSchema := tool.function.parameters }) }]

/-- Embedding of thinkingBudget: the fixed effort tier table. -/
def thinkingBudget (effort : String) : Int × Bool :=
  if effort = providers.reasoningEffortLow then (thinkingBudgetLow, true)
  else if effort = providers.reasoningEffortMedium then (thinkingBudgetMedium, true)
  else if effort = providers.reasoningEffortHigh then (thinkingBudgetHigh, true)
  else (0, false)

/-- Embedding of applyThinking: configures the thinking budget on the
request config; max output tokens are never touched by this provider. -/
def applyThinking (cfg : GenerateContentConfigG) (effort : String) : GenerateContentConfigG :=
  if effort = "" ∨ effort = providers.reasoningEffortNone then cfg
  else
    match thinkingBudget effort with
    | (budget, true) =>
      { cfg with thinkingConfig := some { includeThoughts := true, thinkingBudget := budget } }
    | (_, false) => cfg

/-- Embedding of genai.NewPartFromText. -/
def NewPartFromText (text : String) : PartG := { text := text }

/-- Embedding of genai.NewContentFromText. -/
def NewContentFromText (text : String) (role : String) : ContentG :=
  { role := role, parts := [NewPartFromText text] }

/-- Embedding of genai.NewContentFromParts. -/
def NewContentFromParts (parts : List PartG) (role : String) : ContentG :=
  { role := role, parts := parts }

/-- Embedding of convertImagePart. The source decodes base64 data URLs into
inline bytes, falling back to a file-URI part; the byte-level payload is not
observed by any claim, so the produced part is modelled uniformly as a
file-data part carrying the URL. Its shape and count are faithful. -/
def convertImagePart (img : providers.ImageURL) : PartG :=
  { fileData := some { fileURI := img.url, mimeType := defaultImageMIMEType } }

/-- Embedding of convertUserMessage. -/
def convertUserMessage (msg : providers.Message) : ContentG :=
  if !msg.isMultiModal then NewContentFromText msg.contentString roleUser
  else
    NewContentFromParts
      (msg.contentParts.filterMap (fun part =>
        if part.type_ = contentPartTypeText then some (NewPartFromText part.text)
        else if part.type_ = contentPartTypeImageURL then part.imageURL.map convertImagePart
        else none))
      roleUser

/-- Embedding of convertAssistantMessage: a text part when the content is
nonempty, one function call part per tool call, nil when no parts result. -/
def convertAssistantMessage (msg : providers.Message) : Option ContentG :=
  let textParts : List PartG :=
    if msg.contentString ≠ "" then [{ text := msg.contentString }] else []
  let parts := textParts ++ msg.toolCalls.map (fun tc =>
    ({ functionCall := some { name := tc.function.name, args := some tc.function.arguments } } : PartG))
  if parts.length = 0 then none
  else some { role := roleModel, parts := parts }

/-- Embedding of convertToolMessage. -/
def convertToolMessage (msg : providers.Message) : ContentG :=
  let name := if msg.name = "" then toolCallFallbackName else msg.name
  { role := roleUser
    parts := [{ functionResponse := some { name := name, response := msg.contentString } }] }

/-- Embedding of convertMessage: nil (skipped, with a logged warning) for
unknown roles. -/
def convertMessage (msg : providers.Message) : Option ContentG :=
  if msg.role = providers.roleUser then some (convertUserMessage msg)
  else if msg.role = providers.roleAssistant then convertAssistantMessage msg
  else if msg.role = providers.roleTool then some (convertToolMessage msg)
  else none

/-- The accumulation loop of convertMessages: converted contents plus the
collected system message texts, both in input order. -/
def convertMessagesLoop : List providers.Message → List ContentG × List String
  | [] => ([], [])
  | msg :: rest =>
    let r := convertMessagesLoop rest
    if msg.role = providers.roleSystem then (r.1, msg.contentString :: r.2)
    else
      match convertMessage msg with
      | some c => (c :: r.1, r.2)
      | none => r

/-- Embedding of convertMessages: native contents plus the optional system
instruction built by joining all system message texts with a newline. -/
def convertMessages (messages : List providers.Message) : List ContentG × Option ContentG :=
  let r := convertMessagesLoop messages
  (r.1,
   if r.2.length > 0 then some (NewContentFromText (String.intercalate "\n" r.2) roleUser)
   else none)

/-- A native Go error value handed to ConvertError: either nil (modelled by
the enclosing Option), a genai.APIError (what errors.As matches), or any
other error. -/
inductive GoError where
  | apiErr (code : Int) (message : String)
  | otherErr (message : String)
deriving DecidableEq, Repr

/-- Embedding of Provider.ConvertError. The errors-package constructors are
modelled by their canonical kind (the provider-name decoration they carry
affects no claim). -/
def convertError : Option GoError → Option providers.ErrorKind
  | none => none
  | some (.otherErr _) => some .providerDefault
  | some (.apiErr code message) =>
    if code = 401 ∨ code = 403 then some .authentication
    else if code = 404 then some .modelNotFound
    else if code = 429 then some .rateLimit
    else if code = 400 then
      let msg := goToLower message
      if goContains msg errMsgContext || goContains msg errMsgToken then some .contextLength
      else if goContains msg errMsgSafety || goContains msg errMsgBlock then some .contentFilter
      else some .invalidRequest
    else some .providerDefault

end gemini

namespace anthropic

/-- Assistant text chunk object type. -/
def objectChatCompletionChunk : String := "chat.completion.chunk"

/-- Modelled from the spec: the Anthropic provider implementation file is
not among the available sources (only its test file is). Its streamState,
per the design document §3/§4.3 and TestNewStreamState, holds the running
buffers, the in-progress tool call list and the index of the currently
receiving call (-1 when none). -/
structure AStreamState where
  content : String
  reasoning : String
  messageID : String
  model : String
  currentToolIdx : Int
  toolCalls : List providers.ToolCall
deriving DecidableEq, Repr

/-- Modelled from the spec: newStreamState starts with empty buffers and no
current tool call (TestNewStreamState checks currentToolIdx = -1). -/
def newStreamState : AStreamState :=
  { content := "", reasoning := "", messageID := "", model := "",
    currentToolIdx := -1, toolCalls := [] }

/-- Modelled from the spec: canonical chunk construction of the Anthropic
stream reconstructor (TestStreamStateHandleTextDelta checks id, model,
object and the single choice). -/
def AStreamState.chunk (s : AStreamState) (delta : providers.ChunkDelta) :
    providers.ChatCompletionChunk :=
  { id := s.messageID, object := objectChatCompletionChunk, model := s.model,
    choices := [{ index := 0, delta := delta, finishReason := "" }], usage := none }

/-- Modelled from the spec: a text delta appends to the running text buffer
and emits one chunk carrying exactly that delta (spec §4.3, text delta
rule; TestStreamStateHandleTextDelta). -/
def handleTextDelta (s : AStreamState) (text : String) :
    AStreamState × providers.ChatCompletionChunk :=
  ({ s with content := s.content ++ text },
   s.chunk { content := text, reasoning := none, toolCalls := [] })

/-- Modelled from the spec: a thinking delta appends to the running
reasoning buffer and emits one chunk whose delta carries the reasoning
fragment (spec §4.3, reasoning delta rule). -/
def handleThinkingDelta (s : AStreamState) (text : String) :
    AStreamState × providers.ChatCompletionChunk :=
  ({ s with reasoning := s.reasoning ++ text },
   s.chunk { content := "", reasoning := some { content := text }, toolCalls := [] })

/-- Modelled from the spec: a tool-call-argument delta appends the fragment
to the arguments of the current tool call and emits a chunk carrying the
updated call; when no current call exists or the index is out of range it is
a tolerated no-op emitting nothing (spec §4.3, tool-call-argument-delta
rule; TestStreamStateHandleInputJSONDelta). -/
def handleInputJSONDelta (s : AStreamState) (delta : String) :
    AStreamState × Option providers.ChatCompletionChunk :=
  if s.currentToolIdx < 0 then (s, none)
  else
    match s.toolCalls.get? s.currentToolIdx.toNat with
    | none => (s, none)
    | some tc =>
      let tc := { tc with function := { tc.function with arguments := tc.function.arguments ++ delta } }
      ({ s with toolCalls := s.toolCalls.set s.currentToolIdx.toNat tc },
       some (s.chunk { content := "", reasoning := none, toolCalls := [tc] }))

/-- A run of consecutive text-delta events through the reconstructor,
collecting the emitted chunks in order. -/
def runTextDeltas : AStreamState → List String → AStreamState × List providers.ChatCompletionChunk
  | s, [] => (s, [])
  | s, d :: rest =>
    let p := handleTextDelta s d
    let q := runTextDeltas p.1 rest
    (q.1, p.2 :: q.2)

/-- Modelled from the spec: the Go %T type name of a JSON-shaped `any`
value, as interpolated into toStringSlice error messages (TestToStringSlice
checks the "int" case). -/
def typeName : GoAny → String
  | .null => "<nil>"
  | .boolv _ => "bool"
  | .num _ => "int"
  | .str _ => "string"
  | .arr _ => "[]interface \x7b\x7d"
  | .obj _ => "map[string]interface \x7b\x7d"
  | .unsupported => "func()"

/-- Index-tracking scan of toStringSlice over the element list. -/
def toStringSliceAux : List GoAny → Nat → Except String (List String)
  | [], _ => .ok []
  | .str s :: xs, i => (toStringSliceAux xs (i + 1)).map (fun rest => s :: rest)
  | x :: _, i => .error ("element " ++ toString i ++ ": expected string, got " ++ typeName x)

/-- Modelled from the spec: toStringSlice accepts a []string or an []any of
strings and rejects anything else, naming the first offending element
position (spec §4.1 item 3; TestToStringSlice). The Go []string and []any
cases both collapse to the arr constructor here. -/
def toStringSlice : GoAny → Except String (List String)
  | .arr xs => toStringSliceAux xs 0
  | v => .error ("expected []string or []any, got " ++ typeName v)

/-- Field lookup in a JSON-shaped object (Go map indexing). -/
def lookupField (fields : List (String × GoAny)) (key : String) : Option GoAny :=
  match fields.find? (fun f => f.1 = key) with
  | some f => some f.2
  | none => none

/-- Native anthropic tool input schema (the fields the tests observe). -/
structure InputSchemaA where
  type_ : String
  properties : Option GoAny
  required : List String
deriving Repr

/-- Native anthropic tool declaration. -/
structure ToolParamA where
  name : String
  description : String
  inputSchema : InputSchemaA
deriving Repr

/-- Modelled from the spec: convertTool maps a canonical tool to the native
declaration, validating that a present `required` field is a list of strings
and failing with an error naming the tool and (via toStringSlice) the
offending element position (spec §4.1 item 3; TestConvertTool). -/
def convertTool (tool : providers.Tool) : Except String ToolParamA :=
  let fields := match tool.function.parameters with
    | some (.obj fs) => fs
    | _ => []
  let properties := lookupField fields "properties"
  match lookupField fields "required" with
  | none =>
    .ok { name := tool.function.name, description := tool.function.description,
          inputSchema := { type_ := "object", properties := properties, required := [] } }
  | some v =>
    match toStringSlice v with
    | .error e => .error ("tool " ++ tool.function.name ++ ": invalid required field: " ++ e)
    | .ok rs =>
      .ok { name := tool.function.name, description := tool.function.description,
            inputSchema := { type_ := "object", properties := properties, required := rs } }

/-- Native anthropic thinking configuration. -/
structure ThinkingConfigA where
  budgetTokens : Int
deriving DecidableEq, Repr

/-- Native anthropic.MessageNewParams (the fields applyThinking touches). -/
structure MessageNewParams where
  maxTokens : Int
  thinking : Option ThinkingConfigA := none
deriving DecidableEq, Repr

/-- Modelled from the spec: the Anthropic effort tier table
(TestThinkingBudget: low 1024, medium 4096, high 16384). -/
def thinkingBudget (effort : String) : Int × Bool :=
  if effort = providers.reasoningEffortLow then (1024, true)
  else if effort = providers.reasoningEffortMedium then (4096, true)
  else if effort = providers.reasoningEffortHigh then (16384, true)
  else (0, false)

/-- Modelled from the spec: applyThinking maps the effort to its tier budget
and raises max tokens to the tier floor of twice the budget when the
requested value is below it (spec §4.1 item 4; TestApplyThinking vectors:
1024→2048, 4096→8192, 16384→32768). Empty, none and unrecognized effort
leave the request untouched. -/
def applyThinking (req : MessageNewParams) (effort : String) (maxTokens : Int) :
    MessageNewParams :=
  if effort = "" ∨ effort = providers.reasoningEffortNone then req
  else
    match thinkingBudget effort with
    | (budget, true) =>
      let minTokens := 2 * budget
      let req := if maxTokens < minTokens then { req with maxTokens := minTokens } else req
      { req with thinking := some { budgetTokens := budget } }
    | (_, false) => req

end anthropic

namespace deepseek

/-- Response format type constant: plain JSON object mode. -/
def responseFormatJSONObject : String := "json_object"

/-- Response format type constant: JSON schema mode. -/
def responseFormatJSONSchema : String := "json_schema"

/-- A throwaway message value for total indexing; never observed on valid
indices. -/
def defaultMessage : providers.Message := { role := "", content := .str "" }

/-- The backward scan of preprocessMessagesForJSONSchema for the last
user-role message. -/
def findLastUserIdx (messages : List providers.Message) : Option Nat :=
  (List.range messages.length).reverse.find? (fun i =>
    match messages.get? i with
    | some m => m.role = providers.roleUser
    | none => false)

/-- Embedding of preprocessMessagesForJSONSchema: injects the serialized
schema with fixed instructions ahead of the last user message, returning the
original list and false when no user message exists, when that message is
multimodal, or when schema serialization fails. -/
def preprocessMessagesForJSONSchema (messages : List providers.Message) (schema : GoAny) :
    List providers.Message × Bool :=
  if messages.length = 0 then (messages, false)
  else
    match findLastUserIdx messages with
    | none => (messages, false)
    | some lastUserIdx =>
      let targetMsg := (messages.get? lastUserIdx).getD defaultMessage
      if targetMsg.isMultiModal then (messages, false)
      else
        let originalContent := targetMsg.contentString
        match jsonMarshalIndent schema with
        | none => (messages, false)
        | some schemaJSON =>
          let modifiedContent :=
            "Please respond with a JSON object that matches the following schema:\n\n" ++
            schemaJSON ++
            "\n\nReturn the JSON object only, no other text, do not wrap it in ```json or ```.\n\n" ++
            originalContent
          (messages.set lastUserIdx
            { content := .str modifiedContent
              name := targetMsg.name
              reasoning := targetMsg.reasoning
              role := targetMsg.role
              toolCallID := targetMsg.toolCallID
              toolCalls := targetMsg.toolCalls }, true)

/-- Embedding of the DeepSeek preprocessParams: degrades a json_schema
response format to json_object with the schema injected into the messages,
returning the original params unchanged whenever injection fails. -/
def preprocessParams (params : providers.CompletionParams) : providers.CompletionParams :=
  match params.responseFormat with
  | none => params
  | some rf =>
    if rf.type_ ≠ responseFormatJSONSchema then params
    else
      match rf.jsonSchema with
      | none => params
      | some js =>
        let r := preprocessMessagesForJSONSchema params.messages js.schema
        if !r.2 then params
        else
          { model := params.model
            messages := r.1
            temperature := params.temperature
            topP := params.topP
            maxTokens := params.maxTokens
            stop := params.stop
            stream := params.stream
            streamOptions := params.streamOptions
            tools := params.tools
            toolChoice := params.toolChoice
            parallelToolCalls := params.parallelToolCalls
            responseFormat := some { type_ := responseFormatJSONObject, jsonSchema := none }
            reasoningEffort := params.reasoningEffort
            seed := params.seed
            user := params.user
            extra := params.extra }

end deepseek

namespace mistral

/-- The synthetic assistant acknowledgement content. -/
def assistantOKMessage : String := "OK"

/-- The inserted assistant message value. -/
def okMessage : providers.Message :=
  { role := providers.roleAssistant, content := .str assistantOKMessage }

/-- The insertion-counting pass of patchMessages: the number of tool-role
messages immediately followed by a user-role message. -/
def countToolUser : List providers.Message → Nat
  | m1 :: m2 :: rest =>
    (if m1.role = providers.roleTool ∧ m2.role = providers.roleUser then 1 else 0) +
      countToolUser (m2 :: rest)
  | _ => 0

/-- The building pass of patchMessages: every message is kept and an
assistant OK message is appended after each tool-role message that is
immediately followed by a user-role message. -/
def patchLoop : List providers.Message → List providers.Message
  | [] => []
  | [m] => [m]
  | m1 :: m2 :: rest =>
    if m1.role = providers.roleTool ∧ m2.role = providers.roleUser then
      m1 :: okMessage :: patchLoop (m2 :: rest)
    else
      m1 :: patchLoop (m2 :: rest)

/-- Embedding of patchMessages: short lists and lists needing no insertion
are returned as-is, otherwise the building pass runs. -/
def patchMessages (messages : List providers.Message) : List providers.Message :=
  if messages.length < 2 then messages
  else if countToolUser messages = 0 then messages
  else patchLoop messages

/-- Embedding of the Mistral preprocessParams: patches the (cloned) message
list and strips the unsupported reasoning-effort and user fields. -/
def preprocessParams (params : providers.CompletionParams) : providers.CompletionParams :=
  { params with
    messages := patchMessages params.messages
    reasoningEffort := ""
    user := "" }

end mistral

/-- Concatenation of the content deltas of a choice list. -/
def choicesContent : List providers.ChunkChoice → String
  | [] => ""
  | ch :: chs => ch.delta.content ++ choicesContent chs

/-- The text delta carried by a chunk (across its choices, each emitted
chunk of the embedded reconstructors having exactly one choice). -/
def chunkContent (c : providers.ChatCompletionChunk) : String :=
  choicesContent c.choices

/-- Concatenation, in emission order, of every content delta of a chunk
sequence. -/
def contentConcat : List providers.ChatCompletionChunk → String
  | [] => ""
  | c :: cs => chunkContent c ++ contentConcat cs

/-- The finish reasons carried by a chunk, one per choice. -/
def finishReasonsOf (c : providers.ChatCompletionChunk) : List String :=
  c.choices.map (fun ch => ch.finishReason)

/-- Boolean check that no tool-role message is immediately followed by a
user-role message anywhere in the list. -/
def noToolUserAdjacency : List providers.Message → Bool
  | m1 :: m2 :: rest =>
    !(m1.role = providers.roleTool ∧ m2.role = providers.roleUser : Bool) &&
      noToolUserAdjacency (m2 :: rest)
  | _ => true

/-- Concatenated deltas distribute over chunk list concatenation. -/
theorem contentConcat_append (xs ys : List providers.ChatCompletionChunk) :
    contentConcat (xs ++ ys) = contentConcat xs ++ contentConcat ys := by
  induction xs with
  | nil => simp [contentConcat]
  | cons c cs ih => simp [contentConcat, ih, String.append_assoc]

/-- Processing one part extends the text buffer by exactly the content delta
emitted for it. -/
theorem processPart_content (s : gemini.StreamState) (p : gemini.PartG) :
    ((s.processPart p).1).content = s.content ++ contentConcat (s.processPart p).2 := by
  unfold gemini.StreamState.processPart
  cases hfc : p.functionCall with
  | some fc => simp [contentConcat, chunkContent, choicesContent, gemini.StreamState.chunk]
  | none =>
    by_cases ht : p.thought <;> by_cases htx : p.text = "" <;>
      simp [ht, htx, contentConcat, chunkContent, choicesContent, gemini.StreamState.chunk]

/-- The part loop preserves the text-accumulation identity. -/
theorem processParts_content (ps : List gemini.PartG) :
    ∀ s : gemini.StreamState,
      ((gemini.processParts s ps).1).content = s.content ++ contentConcat (gemini.processParts s ps).2 := by
  induction ps with
  | nil => intro s; simp [gemini.processParts, contentConcat]
  | cons p rest ih =>
    intro s
    simp only [gemini.processParts]
    rw [contentConcat_append, ih, processPart_content, String.append_assoc]

/-- Usage and finish-reason bookkeeping leaves the text buffer unchanged, so
processResponse satisfies the same identity. -/
theorem processResponse_content (s : gemini.StreamState) (resp : gemini.ResponseG) :
    ((s.processResponse resp).1).content = s.content ++ contentConcat (s.processResponse resp).2 := by
  unfold gemini.StreamState.processResponse
  cases hum : resp.usageMetadata <;>
    cases hc : resp.candidates with
    | nil => simp [contentConcat]
    | cons cand rest =>
      cases hcc : cand.content <;>
        by_cases hfr : cand.finishReason = "" <;>
          simp [hcc, hfr, contentConcat, processParts_content]

/-- The whole event loop satisfies the text-accumulation identity. -/
theorem runStream_content (events : List gemini.ResponseG) :
    ∀ s : gemini.StreamState,
      ((gemini.runStream s events).1).content = s.content ++ contentConcat (gemini.runStream s events).2 := by
  induction events with
  | nil => intro s; simp [gemini.runStream, contentConcat]
  | cons r rest ih =>
    intro s
    simp only [gemini.runStream]
    rw [contentConcat_append, ih, processResponse_content, String.append_assoc]

/-- C1: for every native streaming event sequence, concatenating every
emitted content delta in emission order equals the reconstructor's final
accumulated text; a single nonempty text part is appended to the buffer and
emitted as exactly one chunk carrying exactly that delta; and for the
modelled Anthropic reconstructor every partition of a text into deltas emits
one chunk per delta carrying exactly that delta, concatenating back to the
accumulated text. -/
theorem stream_text_delta_concatenation :
    (∀ (s : gemini.StreamState) (events : List gemini.ResponseG),
        ((gemini.runStream s events).1).content =
          s.content ++ contentConcat (gemini.runStream s events).2)
    ∧ (∀ (s : gemini.StreamState) (t : String), t ≠ "" →
        gemini.processParts s [{ text := t }] =
          ({ s with content := s.content ++ t },
           [s.chunk { content := t, reasoning := none, toolCalls := [] }]))
    ∧ (∀ (s : anthropic.AStreamState) (deltas : List String),
        ((anthropic.runTextDeltas s deltas).1).content =
          s.content ++ contentConcat (anthropic.runTextDeltas s deltas).2
        ∧ ((anthropic.runTextDeltas s deltas).2).map chunkContent = deltas) := by
  refine ⟨fun s events => runStream_content events s, fun s t ht => ?_, fun s deltas => ?_⟩
  · simp [gemini.processParts, gemini.StreamState.processPart, ht]
  · induction deltas generalizing s with
    | nil => simp [anthropic.runTextDeltas, contentConcat]
    | cons d rest ih =>
      have ihr := ih { s with content := s.content ++ d }
      refine ⟨?_, ?_⟩
      · simp only [anthropic.runTextDeltas, anthropic.handleTextDelta]
        rw [ihr.1]
        simp [contentConcat, chunkContent, choicesContent, anthropic.AStreamState.chunk,
          String.append_assoc]
      · simp only [anthropic.runTextDeltas, anthropic.handleTextDelta, List.map_cons]
        rw [ihr.2]
        simp [chunkContent, choicesContent, anthropic.AStreamState.chunk]

/-- Witness for C1 at a concrete nonempty delta. -/
theorem stream_text_delta_concatenation_witness :
    gemini.processParts (gemini.newStreamState "g") [{ text := "4" }] =
      ({ gemini.newStreamState "g" with content := "4" },
       [(gemini.newStreamState "g").chunk { content := "4", reasoning := none, toolCalls := [] }]) := by
  have h := stream_text_delta_concatenation.2.1 (gemini.newStreamState "g") "4" (by decide)
  simpa [gemini.newStreamState] using h

/-- C2 counterexample: a stream that accumulates one tool call and then
receives the native MAX_TOKENS finish signal. The claim requires the final
finish reason to be tool_calls regardless of the received native signal, but
the code lets a length signal take precedence: the final chunk reports
length. -/
theorem stream_final_toolcalls_counterexample :
    let s := (gemini.runStream (gemini.newStreamState "g")
      [{ candidates := [{ content := some { role := "model", parts := [{ functionCall := some { name := "get_weather", args := some "\x7b\x7d" } }] }, finishReason := "" }] },
       { candidates := [{ content := none, finishReason := "MAX_TOKENS" }] }]).1
    0 < s.toolCalls.length ∧ s.finishReason ≠ "" ∧
      finishReasonsOf s.finalChunk = [providers.finishReasonLength] ∧
      providers.finishReasonLength ≠ providers.finishReasonToolCalls := by
  decide

/-- C2 (amended): the finish reason of the synthesized final chunk is
tool_calls when tool calls were accumulated and the native signal was absent
or mapped to stop; a native length or content-filter signal takes precedence
over accumulated tool calls; without tool calls it is the converted native
signal; the absent signal converts to stop; and the final chunk carries the
accumulated usage snapshot. -/
theorem stream_final_chunk_finish_reason :
    (∀ s : gemini.StreamState,
        0 < s.toolCalls.length →
        gemini.convertFinishReason s.finishReason = providers.finishReasonStop →
        finishReasonsOf s.finalChunk = [providers.finishReasonToolCalls])
    ∧ (∀ s : gemini.StreamState,
        gemini.convertFinishReason s.finishReason = providers.finishReasonLength →
        finishReasonsOf s.finalChunk = [providers.finishReasonLength])
    ∧ (∀ s : gemini.StreamState,
        gemini.convertFinishReason s.finishReason = providers.finishReasonContentFilter →
        finishReasonsOf s.finalChunk = [providers.finishReasonContentFilter])
    ∧ (∀ s : gemini.StreamState, s.toolCalls = [] →
        finishReasonsOf s.finalChunk = [gemini.convertFinishReason s.finishReason])
    ∧ gemini.convertFinishReason "" = providers.finishReasonStop
    ∧ (∀ s : gemini.StreamState, (s.finalChunk).usage = s.usage) := by
  refine ⟨fun s h1 h2 => ?_, fun s h => ?_, fun s h => ?_, fun s h => ?_, by decide, fun s => ?_⟩
  · simp [gemini.StreamState.finalChunk, finishReasonsOf, gemini.StreamState.chunk, h1, h2]
  · rw [gemini.StreamState.finalChunk, h]
    simp [finishReasonsOf, gemini.StreamState.chunk, providers.finishReasonLength,
      providers.finishReasonStop]
  · rw [gemini.StreamState.finalChunk, h]
    simp [finishReasonsOf, gemini.StreamState.chunk, providers.finishReasonContentFilter,
      providers.finishReasonStop]
  · simp [gemini.StreamState.finalChunk, finishReasonsOf, gemini.StreamState.chunk, h]
  · simp [gemini.StreamState.finalChunk, gemini.StreamState.chunk]

/-- Witness for C2 (amended) at a concrete accumulated state. -/
theorem stream_final_chunk_finish_reason_witness :
    finishReasonsOf (gemini.StreamState.finalChunk
      { content := "", finishReason := "STOP", messageID := "m", model := "g", reasoning := "",
        toolCalls := [{ id := "call_1", type_ := "function", function := { name := "f", arguments := "" } }],
        usage := none, idSupply := 0 }) = [providers.finishReasonToolCalls] :=
  stream_final_chunk_finish_reason.1 _ (by decide) (by decide)

/-- C3 counterexample: the Gemini request converter accepts a tool whose
required field is the non-list value 123 and produces a native declaration
forwarding the malformed schema untouched — request building does not fail,
refuting the for-all-providers claim (the conversion has no error path at
all). -/
theorem gemini_convertTools_counterexample :
    gemini.convertTools [{ type_ := "function", function := { name := "bad_tool", description := "A tool with invalid required field.", parameters := some (.obj [("type", .str "object"), ("properties", .obj []), ("required", .num 123)]) } }] =
      [{ functionDeclarations := [{ name := "bad_tool", description := "A tool with invalid required field.", parametersJsonSchema := some (.obj [("type", .str "object"), ("properties", .obj []), ("required", .num 123)]) }] }] :=
  rfl

/-- Scanning a list whose first non-string element sits after the string
block reports exactly that element's position. -/
theorem toStringSliceAux_first_bad (x : GoAny) (hx : ∀ s, x ≠ .str s) (post : List GoAny) :
    ∀ (pre : List String) (i : Nat),
      anthropic.toStringSliceAux (pre.map GoAny.str ++ x :: post) i =
        .error ("element " ++ toString (i + pre.length) ++ ": expected string, got " ++
          anthropic.typeName x) := by
  intro pre
  induction pre with
  | nil =>
    intro i
    cases x
    case str s => exact absurd rfl (hx s)
    all_goals simp [anthropic.toStringSliceAux]
  | cons p ps ih =>
    intro i
    have harith : i + 1 + ps.length = i + (ps.length + 1) := by omega
    simp [anthropic.toStringSliceAux, ih, harith, Except.map]

/-- C3 (amended): the Anthropic converter is the one that rejects a present
required field that is not a list of strings, failing with an error naming
the tool and the offending element's position and producing no declaration;
the Gemini converter forwards the schema unvalidated (see the
counterexample). -/
theorem anthropic_convertTool_required_validation :
    (∀ (tool : providers.Tool) (fs : List (String × GoAny)) (v : GoAny) (e : String),
        tool.function.parameters = some (.obj fs) →
        anthropic.lookupField fs "required" = some v →
        anthropic.toStringSlice v = .error e →
        anthropic.convertTool tool =
          .error ("tool " ++ tool.function.name ++ ": invalid required field: " ++ e))
    ∧ (∀ (pre : List String) (x : GoAny) (post : List GoAny),
        (∀ s, x ≠ .str s) →
        anthropic.toStringSlice (.arr (pre.map GoAny.str ++ x :: post)) =
          .error ("element " ++ toString pre.length ++ ": expected string, got " ++
            anthropic.typeName x)) := by
  constructor
  · intro tool fs v e hparams hreq htss
    simp [anthropic.convertTool, hparams, hreq, htss]
  · intro pre x post hx
    have h := toStringSliceAux_first_bad x hx post pre 0
    simpa [anthropic.toStringSlice] using h

/-- Witness for C3 (amended) at the mixed-required test tool. -/
theorem anthropic_convertTool_required_validation_witness :
    anthropic.convertTool { type_ := "function", function := { name := "mixed_required", description := "A tool with mixed types in required.", parameters := some (.obj [("type", .str "object"), ("properties", .obj []), ("required", .arr [.str "valid", .num 42, .str "also_valid"])]) } } =
      .error "tool mixed_required: invalid required field: element 1: expected string, got int" := by
  have h := anthropic_convertTool_required_validation.1
    { type_ := "function", function := { name := "mixed_required", description := "A tool with mixed types in required.", parameters := some (.obj [("type", .str "object"), ("properties", .obj []), ("required", .arr [.str "valid", .num 42, .str "also_valid"])]) } }
    [("type", .str "object"), ("properties", .obj []), ("required", .arr [.str "valid", .num 42, .str "also_valid"])]
    (.arr [.str "valid", .num 42, .str "also_valid"])
    "element 1: expected string, got int" rfl rfl rfl
  simpa using h

/-- C4: the Gemini error classifier maps nil to nil; 401/403 to
authentication; 404 to model-not-found; 429 to rate-limit independently of
the message; 400 to invalid-request refined to context-length or
content-filter by case-insensitive substring matching on the message; any
other status, and any error not matching the typed API shape, to the generic
provider error. -/
theorem gemini_convertError_classification :
    gemini.convertError none = none
    ∧ (∀ msg, gemini.convertError (some (.apiErr 401 msg)) = some .authentication)
    ∧ (∀ msg, gemini.convertError (some (.apiErr 403 msg)) = some .authentication)
    ∧ (∀ msg, gemini.convertError (some (.apiErr 404 msg)) = some .modelNotFound)
    ∧ (∀ msg, gemini.convertError (some (.apiErr 429 msg)) = some .rateLimit)
    ∧ (∀ msg, gemini.convertError (some (.apiErr 400 msg)) =
        (if containsCaseInsensitive msg gemini.errMsgContext ||
            containsCaseInsensitive msg gemini.errMsgToken then some .contextLength
         else if containsCaseInsensitive msg gemini.errMsgSafety ||
            containsCaseInsensitive msg gemini.errMsgBlock then some .contentFilter
         else some .invalidRequest))
    ∧ (∀ (code : Int) (msg : String), code ≠ 400 → code ≠ 401 → code ≠ 403 → code ≠ 404 →
        code ≠ 429 → gemini.convertError (some (.apiErr code msg)) = some .providerDefault)
    ∧ (∀ msg, gemini.convertError (some (.otherErr msg)) = some .providerDefault) := by
  have hctx : goToLower gemini.errMsgContext = gemini.errMsgContext := rfl
  have htok : goToLower gemini.errMsgToken = gemini.errMsgToken := rfl
  have hsaf : goToLower gemini.errMsgSafety = gemini.errMsgSafety := rfl
  have hblk : goToLower gemini.errMsgBlock = gemini.errMsgBlock := rfl
  refine ⟨rfl, fun msg => rfl, fun msg => rfl, fun msg => rfl, fun msg => rfl,
    fun msg => ?_, fun code msg h400 h401 h403 h404 h429 => ?_, fun msg => rfl⟩
  · simp [gemini.convertError, containsCaseInsensitive, hctx, htok, hsaf, hblk]
  · simp [gemini.convertError, h400, h401, h403, h404, h429]

/-- Witness for C4 at concrete statuses 500 and 429. -/
theorem gemini_convertError_classification_witness :
    gemini.convertError (some (.apiErr 500 "Internal error")) = some .providerDefault ∧
      gemini.convertError (some (.apiErr 429 "Some unrelated text")) = some .rateLimit :=
  ⟨gemini_convertError_classification.2.2.2.2.2.2.1 500 "Internal error"
      (by decide) (by decide) (by decide) (by decide) (by decide),
   gemini_convertError_classification.2.2.2.2.1 "Some unrelated text"⟩

/-- C5: when the schema-injection preconditions fail — no user message, the
last user message is multimodal, or schema serialization fails — the message
pass returns the original list with false, and preprocessParams returns the
original request completely unmodified (response format stays in schema
mode, no schema text is injected anywhere). -/
theorem deepseek_degradation_frame :
    (∀ (messages : List providers.Message) (schema : GoAny),
        (∀ m ∈ messages, m.role ≠ providers.roleUser) →
        deepseek.preprocessMessagesForJSONSchema messages schema = (messages, false))
    ∧ (∀ (messages : List providers.Message) (schema : GoAny) (idx : Nat),
        deepseek.findLastUserIdx messages = some idx →
        ((messages[idx]?).getD deepseek.defaultMessage).isMultiModal = true →
        deepseek.preprocessMessagesForJSONSchema messages schema = (messages, false))
    ∧ (∀ (messages : List providers.Message) (schema : GoAny),
        jsonMarshalIndent schema = none →
        deepseek.preprocessMessagesForJSONSchema messages schema = (messages, false))
    ∧ (∀ (params : providers.CompletionParams) (rf : providers.ResponseFormat)
          (js : providers.JSONSchema),
        params.responseFormat = some rf →
        rf.jsonSchema = some js →
        (deepseek.preprocessMessagesForJSONSchema params.messages js.schema).2 = false →
        deepseek.preprocessParams params = params) := by
  refine ⟨fun messages schema hnouser => ?_, fun messages schema idx hfind hmm => ?_,
    fun messages schema hm => ?_, fun params rf js h1 h2 h3 => ?_⟩
  · have hfind : deepseek.findLastUserIdx messages = none := by
      rw [deepseek.findLastUserIdx, List.find?_eq_none]
      intro i _
      cases hg : messages.get? i with
      | none => simp
      | some m =>
        have hmem : m ∈ messages := List.get?_mem hg
        simp [hnouser m hmem]
    by_cases hlen : messages.length = 0 <;>
      simp [deepseek.preprocessMessagesForJSONSchema, hlen, hfind]
  · by_cases hlen : messages.length = 0
    · simp [deepseek.preprocessMessagesForJSONSchema, hlen]
    · simp [deepseek.preprocessMessagesForJSONSchema, hlen, hfind, hmm]
  · by_cases hlen : messages.length = 0
    · simp [deepseek.preprocessMessagesForJSONSchema, hlen]
    · cases hfind : deepseek.findLastUserIdx messages with
      | none => simp [deepseek.preprocessMessagesForJSONSchema, hlen, hfind]
      | some idx =>
        by_cases hmm : ((messages[idx]?).getD deepseek.defaultMessage).isMultiModal
        · simp [deepseek.preprocessMessagesForJSONSchema, hlen, hfind, hmm]
        · simp [deepseek.preprocessMessagesForJSONSchema, hlen, hfind, hmm, hm]
  · by_cases hty : rf.type_ = deepseek.responseFormatJSONSchema
    · simp [deepseek.preprocessParams, h1, h2, hty, h3]
    · simp [deepseek.preprocessParams, h1, hty]

/-- Witness for C5: a request whose only (hence last) user message is
multimodal passes through preprocessing byte-for-byte unchanged. -/
theorem deepseek_degradation_frame_witness :
    deepseek.preprocessParams { model := "deepseek-chat", messages := [{ role := providers.roleUser, content := .parts [{ type_ := "text", text := "What is this?", imageURL := none }, { type_ := "image_url", text := "", imageURL := some { url := "https://example.com/img.png" } }] }], responseFormat := some { type_ := "json_schema", jsonSchema := some { name := "test", schema := .obj [("type", .str "object")] } } } =
      { model := "deepseek-chat", messages := [{ role := providers.roleUser, content := .parts [{ type_ := "text", text := "What is this?", imageURL := none }, { type_ := "image_url", text := "", imageURL := some { url := "https://example.com/img.png" } }] }], responseFormat := some { type_ := "json_schema", jsonSchema := some { name := "test", schema := .obj [("type", .str "object")] } } } :=
  deepseek_degradation_frame.2.2.2
    { model := "deepseek-chat", messages := [{ role := providers.roleUser, content := .parts [{ type_ := "text", text := "What is this?", imageURL := none }, { type_ := "image_url", text := "", imageURL := some { url := "https://example.com/img.png" } }] }], responseFormat := some { type_ := "json_schema", jsonSchema := some { name := "test", schema := .obj [("type", .str "object")] } } }
    { type_ := "json_schema", jsonSchema := some { name := "test", schema := .obj [("type", .str "object")] } }
    { name := "test", schema := .obj [("type", .str "object")] }
    rfl rfl rfl

/-- The conversion loop collects exactly the system message texts, in input
order. -/
theorem convertMessagesLoop_sys (messages : List providers.Message) :
    (gemini.convertMessagesLoop messages).2 =
      (messages.filter (fun m => m.role = providers.roleSystem)).map
        providers.Message.contentString := by
  induction messages with
  | nil => simp [gemini.convertMessagesLoop]
  | cons msg rest ih =>
    by_cases h : msg.role = providers.roleSystem
    · simp [gemini.convertMessagesLoop, h, ih]
    · cases hc : gemini.convertMessage msg <;>
        simp [gemini.convertMessagesLoop, h, hc, ih]

/-- Converted user messages carry the native user role. -/
theorem convertUserMessage_role (msg : providers.Message) :
    (gemini.convertUserMessage msg).role = gemini.roleUser := by
  unfold gemini.convertUserMessage
  split <;> rfl

/-- Converted assistant messages, when produced, carry the native model
role. -/
theorem convertAssistantMessage_role (msg : providers.Message) (c : gemini.ContentG)
    (h : gemini.convertAssistantMessage msg = some c) : c.role = gemini.roleModel := by
  unfold gemini.convertAssistantMessage at h
  split at h <;> dsimp only at h <;> split at h
  all_goals first
    | (injection h with h'; subst h'; rfl)
    | simp at h

/-- Every content produced by convertMessage carries the native user or
model role. -/
theorem convertMessage_role (msg : providers.Message) (c : gemini.ContentG)
    (h : gemini.convertMessage msg = some c) :
    c.role = gemini.roleUser ∨ c.role = gemini.roleModel := by
  unfold gemini.convertMessage at h
  split at h
  · injection h with h'
    subst h'
    exact Or.inl (convertUserMessage_role msg)
  · split at h
    · exact Or.inr (convertAssistantMessage_role msg c h)
    · split at h
      · injection h with h'
        subst h'
        exact Or.inl rfl
      · exact absurd h (by simp)

/-- Every content collected by the conversion loop carries the native user
or model role. -/
theorem convertMessagesLoop_roles (messages : List providers.Message) :
    ∀ c ∈ (gemini.convertMessagesLoop messages).1,
      c.role = gemini.roleUser ∨ c.role = gemini.roleModel := by
  induction messages with
  | nil => simp [gemini.convertMessagesLoop]
  | cons msg rest ih =>
    intro c hc
    by_cases h : msg.role = providers.roleSystem
    · rw [gemini.convertMessagesLoop] at hc
      simp only [h, if_true, if_pos] at hc
      exact ih c hc
    · rw [gemini.convertMessagesLoop] at hc
      simp only [h, if_false] at hc
      cases hcm : gemini.convertMessage msg with
      | none => rw [hcm] at hc; exact ih c hc
      | some c0 =>
        rw [hcm] at hc
        simp only [List.mem_cons] at hc
        cases hc with
        | inl he => rw [he]; exact convertMessage_role msg c0 hcm
        | inr hm => exact ih c hm

/-- C6: request conversion extracts all system messages, leading or
interspersed, into one system instruction joined with newline in input
order; the converted native messages all carry the native user or model role
(never system); and a conversation of exactly one system and one user
message converts to exactly one native message plus a populated system
instruction. -/
theorem gemini_system_message_extraction :
    (∀ messages : List providers.Message,
        (gemini.convertMessages messages).2 =
          (if messages.filter (fun m => m.role = providers.roleSystem) = [] then none
           else some (gemini.NewContentFromText
             (String.intercalate "\n"
               ((messages.filter (fun m => m.role = providers.roleSystem)).map
                 providers.Message.contentString))
             gemini.roleUser)))
    ∧ (∀ (messages : List providers.Message) (c : gemini.ContentG),
        c ∈ (gemini.convertMessages messages).1 →
        c.role = gemini.roleUser ∨ c.role = gemini.roleModel)
    ∧ (∀ s u : String,
        gemini.convertMessages
          [{ role := providers.roleSystem, content := .str s },
           { role := providers.roleUser, content := .str u }] =
          ([gemini.NewContentFromText u gemini.roleUser],
           some (gemini.NewContentFromText s gemini.roleUser))) := by
  refine ⟨fun messages => ?_, fun messages c hc => ?_, fun s u => ?_⟩
  · have hloop := convertMessagesLoop_sys messages
    simp only [gemini.convertMessages, hloop]
    cases messages.filter (fun m => m.role = providers.roleSystem) with
    | nil => simp
    | cons a l => simp
  · exact convertMessagesLoop_roles messages c hc
  · simp [gemini.convertMessages, gemini.convertMessagesLoop, gemini.convertMessage,
      gemini.convertUserMessage, providers.Message.isMultiModal, providers.Message.contentString,
      providers.roleSystem, providers.roleUser, providers.roleAssistant, providers.roleTool,
      String.intercalate, String.intercalate.go]

/-- Witness for C6: a concrete converted content is user- or model-role. -/
theorem gemini_system_message_extraction_witness :
    (gemini.NewContentFromText "Hello" gemini.roleUser).role = gemini.roleUser ∨
      (gemini.NewContentFromText "Hello" gemini.roleUser).role = gemini.roleModel :=
  gemini_system_message_extraction.2.1
    [{ role := providers.roleUser, content := .str "Hello" }] _ (by decide)

/-- C7 counterexample: for a concrete producer run the trace closes the
error channel at position 1 and the content channel at position 2 — the
deferred closes run in reverse registration order, so the error channel is
closed first, refuting the claimed content-channel-first close order. -/
theorem producer_close_order_counterexample :
    gemini.producerTrace "m" [] =
      [.sendChunk { id := "gemini-0", object := "chat.completion.chunk", model := "m", choices := [{ index := 0, delta := { content := "", reasoning := none, toolCalls := [] }, finishReason := "stop" }], usage := none },
       .closeErrs, .closeChunks]
    ∧ (gemini.producerTrace "m" [])[1]? = some .closeErrs
    ∧ (gemini.producerTrace "m" [])[2]? = some .closeChunks
    ∧ (gemini.producerTrace "m" []).length = 3 := by
  decide

/-- The producer loop body itself never performs a close action. -/
theorem streamLoop_no_close (events : List gemini.StreamEvent) :
    ∀ s : gemini.StreamState,
      gemini.StreamAction.closeErrs ∉ gemini.streamLoop s events ∧
      gemini.StreamAction.closeChunks ∉ gemini.streamLoop s events := by
  induction events with
  | nil => intro s; simp [gemini.streamLoop]
  | cons e rest ih =>
    intro s
    cases e with
    | errEvent => simp [gemini.streamLoop]
    | resp r =>
      constructor <;>
        simp [gemini.streamLoop, (ih (s.processResponse r).1).1, (ih (s.processResponse r).1).2]

/-- Error-send counting distributes over trace concatenation. -/
theorem countSendErr_append (xs ys : List gemini.StreamAction) :
    gemini.countSendErr (xs ++ ys) = gemini.countSendErr xs + gemini.countSendErr ys := by
  induction xs with
  | nil => simp [gemini.countSendErr]
  | cons a rest ih =>
    cases a <;> simp [gemini.countSendErr, ih]
    omega

/-- Chunk sends contribute no error sends. -/
theorem countSendErr_map_sendChunk (cs : List providers.ChatCompletionChunk) :
    gemini.countSendErr (cs.map gemini.StreamAction.sendChunk) = 0 := by
  induction cs with
  | nil => rfl
  | cons c rest ih => simp [gemini.countSendErr, ih]

/-- The producer loop body signals at most one error. -/
theorem streamLoop_sendErr_le (events : List gemini.StreamEvent) :
    ∀ s : gemini.StreamState, gemini.countSendErr (gemini.streamLoop s events) ≤ 1 := by
  induction events with
  | nil => intro s; simp [gemini.streamLoop, gemini.countSendErr]
  | cons e rest ih =>
    intro s
    cases e with
    | errEvent => simp [gemini.streamLoop, gemini.countSendErr]
    | resp r =>
      simp [gemini.streamLoop, countSendErr_append, countSendErr_map_sendChunk,
        ih (s.processResponse r).1]

/-- C7 (amended): when the producing task exits it closes its two output
channels as the final two actions of its trace, the error channel first and
the content channel second — Go runs the deferred closes in reverse
registration order — and at most one error is ever signaled on the
single-slot error channel. -/
theorem producer_close_order :
    ∀ (model : String) (events : List gemini.StreamEvent),
      (∃ body, gemini.producerTrace model events =
          body ++ [gemini.StreamAction.closeErrs, gemini.StreamAction.closeChunks] ∧
          gemini.StreamAction.closeErrs ∉ body ∧
          gemini.StreamAction.closeChunks ∉ body) ∧
      gemini.countSendErr (gemini.producerTrace model events) ≤ 1 := by
  intro model events
  refine ⟨⟨gemini.streamLoop (gemini.newStreamState model) events, rfl,
    (streamLoop_no_close events (gemini.newStreamState model)).1,
    (streamLoop_no_close events (gemini.newStreamState model)).2⟩, ?_⟩
  rw [gemini.producerTrace, countSendErr_append]
  have h1 := streamLoop_sendErr_le events (gemini.newStreamState model)
  have h2 : gemini.countSendErr [gemini.StreamAction.closeErrs, gemini.StreamAction.closeChunks] = 0 := rfl
  omega

/-- C8: a tool-call-argument delta with a valid current tool call appends
the fragment to that call's arguments and emits exactly one chunk carrying
the updated call; with no current call or an out-of-range index it leaves
the state unchanged and emits nothing — a tolerated no-op, never an error. -/
theorem anthropic_input_json_delta :
    (∀ (s : anthropic.AStreamState) (delta : String) (tc : providers.ToolCall),
        0 ≤ s.currentToolIdx →
        s.toolCalls.get? s.currentToolIdx.toNat = some tc →
        anthropic.handleInputJSONDelta s delta =
          ({ s with toolCalls := (s.toolCalls.set s.currentToolIdx.toNat { tc with function := { tc.function with arguments := tc.function.arguments ++ delta } }) },
           some (s.chunk { content := "", reasoning := none, toolCalls := [{ tc with function := { tc.function with arguments := tc.function.arguments ++ delta } }] })))
    ∧ (∀ (s : anthropic.AStreamState) (delta : String),
        s.currentToolIdx < 0 ∨ s.toolCalls.get? s.currentToolIdx.toNat = none →
        anthropic.handleInputJSONDelta s delta = (s, none)) := by
  constructor
  · intro s delta tc h0 hget
    have hnlt : ¬s.currentToolIdx < 0 := by omega
    rw [List.get?_eq_getElem?] at hget
    simp [anthropic.handleInputJSONDelta, hnlt, hget]
  · intro s delta h
    cases h with
    | inl hlt => simp [anthropic.handleInputJSONDelta, hlt]
    | inr hnone =>
      rw [List.get?_eq_getElem?] at hnone
      by_cases hlt : s.currentToolIdx < 0 <;>
        simp [anthropic.handleInputJSONDelta, hlt, hnone]

/-- Witness for C8: the concrete first-fragment append of the unit test. -/
theorem anthropic_input_json_delta_witness :
    anthropic.handleInputJSONDelta
      { content := "", reasoning := "", messageID := "msg_123", model := "claude-3", currentToolIdx := 0, toolCalls := [{ id := "call_1", type_ := "function", function := { name := "get_weather", arguments := "" } }] }
      "\x7b\"location\":" =
      ({ content := "", reasoning := "", messageID := "msg_123", model := "claude-3", currentToolIdx := 0, toolCalls := [{ id := "call_1", type_ := "function", function := { name := "get_weather", arguments := "\x7b\"location\":" } }] },
       some { id := "msg_123", object := "chat.completion.chunk", model := "claude-3", choices := [{ index := 0, delta := { content := "", reasoning := none, toolCalls := [{ id := "call_1", type_ := "function", function := { name := "get_weather", arguments := "\x7b\"location\":" } }] }, finishReason := "" }], usage := none }) := by
  have h := anthropic_input_json_delta.1
    { content := "", reasoning := "", messageID := "msg_123", model := "claude-3", currentToolIdx := 0, toolCalls := [{ id := "call_1", type_ := "function", function := { name := "get_weather", arguments := "" } }] }
    "\x7b\"location\":"
    { id := "call_1", type_ := "function", function := { name := "get_weather", arguments := "" } }
    (by decide) rfl
  simpa [anthropic.AStreamState.chunk] using h

/-- C9: each recognized effort level maps to its fixed tier budget; the
Anthropic converter raises max tokens exactly to the tier floor (twice the
budget) when the requested value is below it and leaves it unchanged
otherwise; the Gemini converter sets the tier budget and never touches max
output tokens; empty, none, or unrecognized effort changes nothing on either
converter. -/
theorem reasoning_effort_budget_and_floor :
    (∀ (req : anthropic.MessageNewParams) (mt : Int),
        anthropic.applyThinking req providers.reasoningEffortLow mt =
          { maxTokens := if mt < 2048 then 2048 else req.maxTokens, thinking := some { budgetTokens := 1024 } })
    ∧ (∀ (req : anthropic.MessageNewParams) (mt : Int),
        anthropic.applyThinking req providers.reasoningEffortMedium mt =
          { maxTokens := if mt < 8192 then 8192 else req.maxTokens, thinking := some { budgetTokens := 4096 } })
    ∧ (∀ (req : anthropic.MessageNewParams) (mt : Int),
        anthropic.applyThinking req providers.reasoningEffortHigh mt =
          { maxTokens := if mt < 32768 then 32768 else req.maxTokens, thinking := some { budgetTokens := 16384 } })
    ∧ (∀ (req : anthropic.MessageNewParams) (mt : Int),
        anthropic.applyThinking req "" mt = req)
    ∧ (∀ (req : anthropic.MessageNewParams) (mt : Int),
        anthropic.applyThinking req providers.reasoningEffortNone mt = req)
    ∧ (∀ (req : anthropic.MessageNewParams) (mt : Int) (effort : String),
        (anthropic.thinkingBudget effort).2 = false →
        anthropic.applyThinking req effort mt = req)
    ∧ (∀ (cfg : gemini.GenerateContentConfigG) (effort : String),
        (gemini.applyThinking cfg effort).maxOutputTokens = cfg.maxOutputTokens)
    ∧ (∀ cfg : gemini.GenerateContentConfigG,
        gemini.applyThinking cfg providers.reasoningEffortLow =
          { cfg with thinkingConfig := some { includeThoughts := true, thinkingBudget := 1024 } })
    ∧ (∀ cfg : gemini.GenerateContentConfigG,
        gemini.applyThinking cfg providers.reasoningEffortMedium =
          { cfg with thinkingConfig := some { includeThoughts := true, thinkingBudget := 8192 } })
    ∧ (∀ cfg : gemini.GenerateContentConfigG,
        gemini.applyThinking cfg providers.reasoningEffortHigh =
          { cfg with thinkingConfig := some { includeThoughts := true, thinkingBudget := 24576 } })
    ∧ (∀ cfg : gemini.GenerateContentConfigG, gemini.applyThinking cfg "" = cfg)
    ∧ (∀ cfg : gemini.GenerateContentConfigG,
        gemini.applyThinking cfg providers.reasoningEffortNone = cfg)
    ∧ (∀ (cfg : gemini.GenerateContentConfigG) (effort : String),
        (gemini.thinkingBudget effort).2 = false →
        gemini.applyThinking cfg effort = cfg) := by
  refine ⟨fun req mt => ?_, fun req mt => ?_, fun req mt => ?_, fun req mt => rfl,
    fun req mt => rfl, fun req mt effort hb => ?_, fun cfg effort => ?_,
    fun cfg => rfl, fun cfg => rfl, fun cfg => rfl, fun cfg => rfl, fun cfg => rfl,
    fun cfg effort hb => ?_⟩
  · by_cases hmt : mt < 2048 <;>
      simp [anthropic.applyThinking, anthropic.thinkingBudget, providers.reasoningEffortLow,
        providers.reasoningEffortNone, hmt]
  · by_cases hmt : mt < 8192 <;>
      simp [anthropic.applyThinking, anthropic.thinkingBudget, providers.reasoningEffortMedium,
        providers.reasoningEffortLow, providers.reasoningEffortNone, hmt]
  · by_cases hmt : mt < 32768 <;>
      simp [anthropic.applyThinking, anthropic.thinkingBudget, providers.reasoningEffortHigh,
        providers.reasoningEffortLow, providers.reasoningEffortMedium,
        providers.reasoningEffortNone, hmt]
  · by_cases he : effort = "" ∨ effort = providers.reasoningEffortNone
    · simp [anthropic.applyThinking, he]
    · cases hbv : anthropic.thinkingBudget effort with
      | mk b ok =>
        rw [hbv] at hb
        simp only at hb
        subst hb
        simp [anthropic.applyThinking, he, hbv]
  · by_cases he : effort = "" ∨ effort = providers.reasoningEffortNone
    · simp [gemini.applyThinking, he]
    · cases hbv : gemini.thinkingBudget effort with
      | mk b ok =>
        cases ok <;> simp [gemini.applyThinking, he, hbv]
  · by_cases he : effort = "" ∨ effort = providers.reasoningEffortNone
    · simp [gemini.applyThinking, he]
    · cases hbv : gemini.thinkingBudget effort with
      | mk b ok =>
        rw [hbv] at hb
        simp only at hb
        subst hb
        simp [gemini.applyThinking, he, hbv]

/-- Witness for C9: low effort raises 1000 max tokens to the 2048 floor; an
unrecognized effort leaves the request untouched. -/
theorem reasoning_effort_budget_and_floor_witness :
    anthropic.applyThinking { maxTokens := 1000 } providers.reasoningEffortLow 1000 =
      { maxTokens := 2048, thinking := some { budgetTokens := 1024 } } ∧
    anthropic.applyThinking { maxTokens := 1000 } "invalid" 1000 = { maxTokens := 1000 } := by
  constructor
  · have h := reasoning_effort_budget_and_floor.1 { maxTokens := 1000 } 1000
    simpa using h
  · exact reasoning_effort_budget_and_floor.2.2.2.2.2.1 { maxTokens := 1000 } 1000 "invalid" rfl

/-- The building pass keeps the head of its input in place. -/
theorem patchLoop_head (m2 : providers.Message) (rest : List providers.Message) :
    ∃ t, mistral.patchLoop (m2 :: rest) = m2 :: t := by
  cases rest with
  | nil => exact ⟨[], rfl⟩
  | cons m3 r =>
    by_cases h23 : m2.role = providers.roleTool ∧ m3.role = providers.roleUser
    · exact ⟨mistral.okMessage :: mistral.patchLoop (m3 :: r), by simp [mistral.patchLoop, h23]⟩
    · exact ⟨mistral.patchLoop (m3 :: r), by simp [mistral.patchLoop, h23]⟩

/-- The input is a sublist of the building pass output: originals survive
unmodified, in order. -/
theorem patchLoop_sublist : ∀ msgs : List providers.Message,
    List.Sublist msgs (mistral.patchLoop msgs)
  | [] => by simp [mistral.patchLoop]
  | [m] => by simp [mistral.patchLoop]
  | m1 :: m2 :: rest => by
    have ih := patchLoop_sublist (m2 :: rest)
    by_cases h : m1.role = providers.roleTool ∧ m2.role = providers.roleUser
    · rw [show mistral.patchLoop (m1 :: m2 :: rest) = m1 :: mistral.okMessage :: mistral.patchLoop (m2 :: rest) by simp [mistral.patchLoop, h]]
      exact List.Sublist.cons₂ m1 (List.Sublist.cons mistral.okMessage ih)
    · rw [show mistral.patchLoop (m1 :: m2 :: rest) = m1 :: mistral.patchLoop (m2 :: rest) by simp [mistral.patchLoop, h]]
      exact List.Sublist.cons₂ m1 ih

/-- The building pass output has no tool message directly followed by a user
message. -/
theorem patchLoop_noAdjacency : ∀ msgs : List providers.Message,
    noToolUserAdjacency (mistral.patchLoop msgs) = true
  | [] => rfl
  | [m] => rfl
  | m1 :: m2 :: rest => by
    have ih := patchLoop_noAdjacency (m2 :: rest)
    obtain ⟨t, ht⟩ := patchLoop_head m2 rest
    have ih' : noToolUserAdjacency (m2 :: t) = true := ht ▸ ih
    by_cases h : m1.role = providers.roleTool ∧ m2.role = providers.roleUser
    · rw [show mistral.patchLoop (m1 :: m2 :: rest) = m1 :: mistral.okMessage :: mistral.patchLoop (m2 :: rest) by simp [mistral.patchLoop, h], ht]
      simp [noToolUserAdjacency, mistral.okMessage, providers.roleAssistant, providers.roleUser,
        providers.roleTool, ih']
    · rw [show mistral.patchLoop (m1 :: m2 :: rest) = m1 :: mistral.patchLoop (m2 :: rest) by simp [mistral.patchLoop, h], ht]
      simp [noToolUserAdjacency, h, ih']

/-- Every element of the building pass output is an original message or the
inserted OK message. -/
theorem patchLoop_mem : ∀ msgs : List providers.Message, ∀ m ∈ mistral.patchLoop msgs,
    m ∈ msgs ∨ m = mistral.okMessage
  | [] => by simp [mistral.patchLoop]
  | [m0] => by
    intro m hm
    simp [mistral.patchLoop] at hm
    exact Or.inl (by simp [hm])
  | m1 :: m2 :: rest => by
    intro m hm
    have ih := patchLoop_mem (m2 :: rest)
    by_cases h : m1.role = providers.roleTool ∧ m2.role = providers.roleUser
    · rw [show mistral.patchLoop (m1 :: m2 :: rest) = m1 :: mistral.okMessage :: mistral.patchLoop (m2 :: rest) by simp [mistral.patchLoop, h]] at hm
      rcases List.mem_cons.mp hm with h1 | hm'
      · exact Or.inl (by simp [h1])
      · rcases List.mem_cons.mp hm' with h2 | hm''
        · exact Or.inr h2
        · rcases ih m hm'' with hin | hok
          · exact Or.inl (List.mem_cons_of_mem m1 hin)
          · exact Or.inr hok
    · rw [show mistral.patchLoop (m1 :: m2 :: rest) = m1 :: mistral.patchLoop (m2 :: rest) by simp [mistral.patchLoop, h]] at hm
      rcases List.mem_cons.mp hm with h1 | hm'
      · exact Or.inl (by simp [h1])
      · rcases ih m hm' with hin | hok
        · exact Or.inl (List.mem_cons_of_mem m1 hin)
        · exact Or.inr hok

/-- The building pass inserts exactly one message per counted adjacency. -/
theorem patchLoop_length : ∀ msgs : List providers.Message,
    (mistral.patchLoop msgs).length = msgs.length + mistral.countToolUser msgs
  | [] => rfl
  | [m] => rfl
  | m1 :: m2 :: rest => by
    have ih := patchLoop_length (m2 :: rest)
    by_cases h : m1.role = providers.roleTool ∧ m2.role = providers.roleUser <;>
      simp [mistral.patchLoop, mistral.countToolUser, h, ih] <;> omega

/-- With no counted adjacency the building pass is the identity. -/
theorem patchLoop_of_countZero : ∀ msgs : List providers.Message,
    mistral.countToolUser msgs = 0 → mistral.patchLoop msgs = msgs
  | [] => fun _ => rfl
  | [m] => fun _ => rfl
  | m1 :: m2 :: rest => fun h0 => by
    rw [mistral.countToolUser] at h0
    by_cases h : m1.role = providers.roleTool ∧ m2.role = providers.roleUser
    · simp [h] at h0
    · have hrec : mistral.countToolUser (m2 :: rest) = 0 := by
        simp [h] at h0
        exact h0
      simp [mistral.patchLoop, h, patchLoop_of_countZero (m2 :: rest) hrec]

/-- The early returns of patchMessages coincide with the building pass, so
the two agree on every input. -/
theorem patchMessages_eq_patchLoop (msgs : List providers.Message) :
    mistral.patchMessages msgs = mistral.patchLoop msgs := by
  rw [mistral.patchMessages]
  by_cases hlen : msgs.length < 2
  · rw [if_pos hlen]
    cases msgs with
    | nil => rfl
    | cons a t =>
      cases t with
      | nil => rfl
      | cons b t2 =>
        simp only [List.length_cons] at hlen
        omega
  · rw [if_neg hlen]
    by_cases hc : mistral.countToolUser msgs = 0
    · rw [if_pos hc, patchLoop_of_countZero msgs hc]
    · rw [if_neg hc]

/-- C10: Mistral preprocessing patches the message list so that an assistant
OK message sits between every tool message and an immediately following user
message: the originals survive unmodified in their original relative order
(the input is a sublist of the output), no tool message is directly followed
by a user message in the output, every output element is an original or the
OK message, and exactly one insertion happens per tool-user adjacency. -/
theorem mistral_patch_messages :
    (∀ msgs : List providers.Message, List.Sublist msgs (mistral.patchMessages msgs))
    ∧ (∀ msgs : List providers.Message, noToolUserAdjacency (mistral.patchMessages msgs) = true)
    ∧ (∀ (msgs : List providers.Message) (m : providers.Message),
        m ∈ mistral.patchMessages msgs → m ∈ msgs ∨ m = mistral.okMessage)
    ∧ (∀ msgs : List providers.Message,
        (mistral.patchMessages msgs).length = msgs.length + mistral.countToolUser msgs)
    ∧ (∀ params : providers.CompletionParams,
        (mistral.preprocessParams params).messages = mistral.patchMessages params.messages) := by
  refine ⟨fun msgs => ?_, fun msgs => ?_, fun msgs m hm => ?_, fun msgs => ?_, fun params => rfl⟩
  · rw [patchMessages_eq_patchLoop]
    exact patchLoop_sublist msgs
  · rw [patchMessages_eq_patchLoop]
    exact patchLoop_noAdjacency msgs
  · rw [patchMessages_eq_patchLoop] at hm
    exact patchLoop_mem msgs m hm
  · rw [patchMessages_eq_patchLoop]
    exact patchLoop_length msgs

/-- Witness for C10: the inserted element of a concrete patched conversation
is the OK message. -/
theorem mistral_patch_messages_witness :
    mistral.okMessage ∈
        [({ role := providers.roleTool, content := .str "result", toolCallID := "call_1" } : providers.Message),
         { role := providers.roleUser, content := .str "thanks" }] ∨
      mistral.okMessage = mistral.okMessage :=
  mistral_patch_messages.2.2.1
    [{ role := providers.roleTool, content := .str "result", toolCallID := "call_1" },
     { role := providers.roleUser, content := .str "thanks" }]
    mistral.okMessage (by decide)

end AnyLLM
